import Mathlib

/-!
Verification of the RouterOS API client (package `routeros_api`).

The Go source is shallowly embedded:
* bytes on the wire are `Nat` values < 256, a connection's incoming bytes are a
  `List Nat` (an exhausted list models EOF);
* `int64` arithmetic is `Nat` arithmetic (all values involved are non-negative
  and far below 2^63, so no overflow or sign issues arise);
* Go maps are association lists with overwrite-on-insert;
* the Go code panics on a failed regex match and loops forever on a
  stream that ends early; both are modelled by `Option` (`none` = no normal
  return).
-/

/- ---------------------------------------------------------------------------
Length codec (source: `write_length`, `read_length`, `read_byte`)
--------------------------------------------------------------------------- -/

/-- `read_byte`: pull one byte from the connection.  The Go code ignores the
error returned by `conn.Read`, so at EOF the untouched zero buffer is
returned: an exhausted stream yields byte 0.  The `% 256` reflects that
`b[0]` is a byte. -/
def read_byte : List Nat → Nat × List Nat
  | [] => (0, [])
  | b :: rest => (b % 256, rest)

/-- `write_length`: encode a word length into 1-5 bytes, narrowest band first.
`byte(e)` is translated as `e % 256`; the source's `& 0xFF` is kept as
`&&& 0xFF`. -/
def write_length (length : Nat) : List Nat :=
  if length < 0x80 then
    [length % 256]
  else if length < 0x4000 then
    let l := length ||| 0x8000
    [(l >>> 8) % 256 &&& 0xFF, l % 256 &&& 0xFF]
  else if length < 0x200000 then
    let l := length ||| 0xC00000
    [(l >>> 16) % 256 &&& 0xFF, (l >>> 8) % 256 &&& 0xFF, l % 256 &&& 0xFF]
  else if length < 0x10000000 then
    let l := length ||| 0xE0000000
    [(l >>> 24) % 256 &&& 0xFF, (l >>> 16) % 256 &&& 0xFF,
      (l >>> 8) % 256 &&& 0xFF, l % 256 &&& 0xFF]
  else
    [0xF0, (length >>> 24) % 256 &&& 0xFF, (length >>> 16) % 256 &&& 0xFF,
      (length >>> 8) % 256 &&& 0xFF, length % 256 &&& 0xFF]

/-- `read_length`: decode a length from the stream, returning it together with
the rest of the stream.  The first byte's high bits select the band.  Go's
`length &= ^0xC0` (resp. `^0xE0`, `^0xF0`) clears the top marker bits of the
byte-valued `length`; on a value < 256 this is exactly `&&& 0x3F`
(resp. `&&& 0x1F`, `&&& 0x0F`).  When no case matches (first byte ≥ 0xF8) the
Go switch falls through and the first byte is returned as-is. -/
def read_length (s : List Nat) : Nat × List Nat :=
  let r0 := read_byte s
  let l0 := r0.1
  if l0 &&& 0x80 = 0x00 then
    (l0, r0.2)
  else if l0 &&& 0xC0 = 0x80 then
    let r1 := read_byte r0.2
    ((l0 &&& 0x3F) <<< 8 + r1.1, r1.2)
  else if l0 &&& 0xE0 = 0xC0 then
    let r1 := read_byte r0.2
    let r2 := read_byte r1.2
    (((l0 &&& 0x1F) <<< 8 + r1.1) <<< 8 + r2.1, r2.2)
  else if l0 &&& 0xF0 = 0xE0 then
    let r1 := read_byte r0.2
    let r2 := read_byte r1.2
    let r3 := read_byte r2.2
    ((((l0 &&& 0x0F) <<< 8 + r1.1) <<< 8 + r2.1) <<< 8 + r3.1, r3.2)
  else if l0 &&& 0xF8 = 0xF0 then
    let r1 := read_byte r0.2
    let r2 := read_byte r1.2
    let r3 := read_byte r2.2
    let r4 := read_byte r3.2
    (((r1.1 <<< 8 + r2.1) <<< 8 + r3.1) <<< 8 + r4.1, r4.2)
  else
    (l0, r0.2)

/- Helper lemmas about byte-sized bitwise operations. -/

set_option maxRecDepth 100000

theorem fin_and_128 : ∀ b : Fin 256, b.val &&& 0x80 = b.val / 128 * 128 := by decide

theorem fin_and_192 : ∀ b : Fin 256, b.val &&& 0xC0 = b.val / 64 * 64 := by decide

theorem fin_and_224 : ∀ b : Fin 256, b.val &&& 0xE0 = b.val / 32 * 32 := by decide

theorem fin_and_240 : ∀ b : Fin 256, b.val &&& 0xF0 = b.val / 16 * 16 := by decide

theorem fin_and_248 : ∀ b : Fin 256, b.val &&& 0xF8 = b.val / 8 * 8 := by decide

theorem fin_and_63 : ∀ b : Fin 256, b.val &&& 0x3F = b.val % 64 := by decide

theorem fin_and_31 : ∀ b : Fin 256, b.val &&& 0x1F = b.val % 32 := by decide

theorem fin_and_15 : ∀ b : Fin 256, b.val &&& 0x0F = b.val % 16 := by decide

theorem nat_and_128 (b : Nat) (h : b < 256) : b &&& 0x80 = b / 128 * 128 := fin_and_128 ⟨b, h⟩

theorem nat_and_192 (b : Nat) (h : b < 256) : b &&& 0xC0 = b / 64 * 64 := fin_and_192 ⟨b, h⟩

theorem nat_and_224 (b : Nat) (h : b < 256) : b &&& 0xE0 = b / 32 * 32 := fin_and_224 ⟨b, h⟩

theorem nat_and_240 (b : Nat) (h : b < 256) : b &&& 0xF0 = b / 16 * 16 := fin_and_240 ⟨b, h⟩

theorem nat_and_248 (b : Nat) (h : b < 256) : b &&& 0xF8 = b / 8 * 8 := fin_and_248 ⟨b, h⟩

theorem nat_and_63 (b : Nat) (h : b < 256) : b &&& 0x3F = b % 64 := fin_and_63 ⟨b, h⟩

theorem nat_and_31 (b : Nat) (h : b < 256) : b &&& 0x1F = b % 32 := fin_and_31 ⟨b, h⟩

theorem nat_and_15 (b : Nat) (h : b < 256) : b &&& 0x0F = b % 16 := fin_and_15 ⟨b, h⟩

/-- Setting bit positions at or above `k` by an `or` is the same as adding,
when the low operand fits below `2^k`. -/
theorem lor_high {n : Nat} (k m : Nat) (h : n < 2 ^ k) :
    n ||| 2 ^ k * m = 2 ^ k * m + n := by
  apply Nat.eq_of_testBit_eq
  intro j
  have hpos : (0 : Nat) < 2 ^ k := pow_pos (by norm_num) k
  have hm : (2 ^ k * m + n).testBit j =
      if j < k then n.testBit j else m.testBit (j - k) :=
    Nat.testBit_mul_pow_two_add m h j
  have hm0 : (2 ^ k * m).testBit j =
      if j < k then false else m.testBit (j - k) := by
    have h0 := Nat.testBit_mul_pow_two_add m hpos j
    simpa using h0
  rw [Nat.testBit_lor, hm, hm0]
  by_cases hj : j < k
  · simp [hj]
  · have hn : n.testBit j = false := by
      apply Nat.testBit_lt_two_pow
      exact lt_of_lt_of_le h (Nat.pow_le_pow_right (by norm_num) (Nat.le_of_not_lt hj))
    simp [hj, hn]

theorem mask_255 (x : Nat) : x &&& 0xFF = x % 256 := by
  have h := Nat.and_pow_two_sub_one_eq_mod x 8
  norm_num at h
  exact h

/- Closed forms for the encoder, band by band. -/

theorem write_length_band1 (n : Nat) (h : n < 0x80) : write_length n = [n] := by
  unfold write_length
  rw [if_pos h]
  simp
  omega

theorem write_length_band2 (n : Nat) (h1 : 0x80 ≤ n) (h2 : n < 0x4000) :
    write_length n = [128 + n / 256, n % 256] := by
  have hl : n ||| 0x8000 = 0x8000 + n := by
    have h := lor_high 15 1 (show n < 2 ^ 15 by omega)
    norm_num at h
    exact h
  unfold write_length
  rw [if_neg (by omega), if_pos h2]
  simp only [hl, Nat.shiftRight_eq_div_pow, mask_255]
  norm_num
  all_goals omega

theorem write_length_band3 (n : Nat) (h1 : 0x4000 ≤ n) (h2 : n < 0x200000) :
    write_length n = [192 + n / 65536, n / 256 % 256, n % 256] := by
  have hl : n ||| 0xC00000 = 0xC00000 + n := by
    have h := lor_high 22 3 (show n < 2 ^ 22 by omega)
    norm_num at h
    exact h
  unfold write_length
  rw [if_neg (by omega), if_neg (by omega), if_pos h2]
  simp only [hl, Nat.shiftRight_eq_div_pow, mask_255]
  norm_num
  all_goals omega

theorem write_length_band4 (n : Nat) (h1 : 0x200000 ≤ n) (h2 : n < 0x10000000) :
    write_length n = [224 + n / 16777216, n / 65536 % 256, n / 256 % 256, n % 256] := by
  have hl : n ||| 0xE0000000 = 0xE0000000 + n := by
    have h := lor_high 29 7 (show n < 2 ^ 29 by omega)
    norm_num at h
    exact h
  unfold write_length
  rw [if_neg (by omega), if_neg (by omega), if_neg (by omega), if_pos h2]
  simp only [hl, Nat.shiftRight_eq_div_pow, mask_255]
  norm_num
  all_goals omega

theorem write_length_band5 (n : Nat) (h1 : 0x10000000 ≤ n) (h2 : n ≤ 0xFFFFFFFF) :
    write_length n = [0xF0, n / 16777216, n / 65536 % 256, n / 256 % 256, n % 256] := by
  unfold write_length
  rw [if_neg (by omega), if_neg (by omega), if_neg (by omega), if_neg (by omega)]
  simp only [Nat.shiftRight_eq_div_pow, mask_255]
  norm_num
  all_goals omega

/- Closed forms for the decoder, band by band. -/

theorem read_length_band1 (b0 : Nat) (rest : List Nat) (h : b0 < 128) :
    read_length (b0 :: rest) = (b0, rest) := by
  unfold read_length
  simp only [read_byte]
  rw [Nat.mod_eq_of_lt (by omega)]
  rw [if_pos (by rw [nat_and_128 b0 (by omega)]; omega)]

theorem read_length_band2 (b0 b1 : Nat) (rest : List Nat)
    (h0 : 128 ≤ b0) (h0' : b0 < 192) (h1 : b1 < 256) :
    read_length (b0 :: b1 :: rest) = ((b0 - 128) * 256 + b1, rest) := by
  unfold read_length
  simp only [read_byte]
  rw [Nat.mod_eq_of_lt (show b0 < 256 by omega)]
  rw [if_neg (by rw [nat_and_128 b0 (by omega)]; omega)]
  rw [if_pos (by rw [nat_and_192 b0 (by omega)]; omega)]
  rw [nat_and_63 b0 (by omega)]
  rw [Nat.mod_eq_of_lt (show b1 < 256 by omega)]
  simp only [Nat.shiftLeft_eq, Prod.mk.injEq]
  norm_num
  all_goals omega

theorem read_length_band3 (b0 b1 b2 : Nat) (rest : List Nat)
    (h0 : 192 ≤ b0) (h0' : b0 < 224) (h1 : b1 < 256) (h2 : b2 < 256) :
    read_length (b0 :: b1 :: b2 :: rest) = (((b0 - 192) * 256 + b1) * 256 + b2, rest) := by
  unfold read_length
  simp only [read_byte]
  rw [Nat.mod_eq_of_lt (show b0 < 256 by omega)]
  rw [if_neg (by rw [nat_and_128 b0 (by omega)]; omega)]
  rw [if_neg (by rw [nat_and_192 b0 (by omega)]; omega)]
  rw [if_pos (by rw [nat_and_224 b0 (by omega)]; omega)]
  rw [nat_and_31 b0 (by omega)]
  rw [Nat.mod_eq_of_lt (show b1 < 256 by omega), Nat.mod_eq_of_lt (show b2 < 256 by omega)]
  simp only [Nat.shiftLeft_eq, Prod.mk.injEq]
  norm_num
  all_goals omega

theorem read_length_band4 (b0 b1 b2 b3 : Nat) (rest : List Nat)
    (h0 : 224 ≤ b0) (h0' : b0 < 240) (h1 : b1 < 256) (h2 : b2 < 256) (h3 : b3 < 256) :
    read_length (b0 :: b1 :: b2 :: b3 :: rest) =
      ((((b0 - 224) * 256 + b1) * 256 + b2) * 256 + b3, rest) := by
  unfold read_length
  simp only [read_byte]
  rw [Nat.mod_eq_of_lt (show b0 < 256 by omega)]
  rw [if_neg (by rw [nat_and_128 b0 (by omega)]; omega)]
  rw [if_neg (by rw [nat_and_192 b0 (by omega)]; omega)]
  rw [if_neg (by rw [nat_and_224 b0 (by omega)]; omega)]
  rw [if_pos (by rw [nat_and_240 b0 (by omega)]; omega)]
  rw [nat_and_15 b0 (by omega)]
  rw [Nat.mod_eq_of_lt (show b1 < 256 by omega), Nat.mod_eq_of_lt (show b2 < 256 by omega),
    Nat.mod_eq_of_lt (show b3 < 256 by omega)]
  simp only [Nat.shiftLeft_eq, Prod.mk.injEq]
  norm_num
  all_goals omega

theorem read_length_band5 (b0 b1 b2 b3 b4 : Nat) (rest : List Nat)
    (h0 : 240 ≤ b0) (h0' : b0 < 248)
    (h1 : b1 < 256) (h2 : b2 < 256) (h3 : b3 < 256) (h4 : b4 < 256) :
    read_length (b0 :: b1 :: b2 :: b3 :: b4 :: rest) =
      (((b1 * 256 + b2) * 256 + b3) * 256 + b4, rest) := by
  unfold read_length
  simp only [read_byte]
  rw [Nat.mod_eq_of_lt (show b0 < 256 by omega)]
  rw [if_neg (by rw [nat_and_128 b0 (by omega)]; omega)]
  rw [if_neg (by rw [nat_and_192 b0 (by omega)]; omega)]
  rw [if_neg (by rw [nat_and_224 b0 (by omega)]; omega)]
  rw [if_neg (by rw [nat_and_240 b0 (by omega)]; omega)]
  rw [if_pos (by rw [nat_and_248 b0 (by omega)]; omega)]
  rw [Nat.mod_eq_of_lt (show b1 < 256 by omega), Nat.mod_eq_of_lt (show b2 < 256 by omega),
    Nat.mod_eq_of_lt (show b3 < 256 by omega), Nat.mod_eq_of_lt (show b4 < 256 by omega)]
  simp only [Nat.shiftLeft_eq, Prod.mk.injEq]

/-- Claim C1: for every n up to 0xFFFFFFFF, decoding the encoding of n (with
any trailing stream) yields n and leaves the trailing stream untouched, and
the encoding occupies exactly the byte count mandated by n's band, the 5-byte
form being the 0xF0 marker followed by 4 plain big-endian bytes. -/
theorem length_codec_roundtrip (n : Nat) (rest : List Nat) (h : n ≤ 0xFFFFFFFF) :
    read_length (write_length n ++ rest) = (n, rest) ∧
    (write_length n).length =
      (if n ≤ 0x7F then 1 else if n ≤ 0x3FFF then 2 else if n ≤ 0x1FFFFF then 3
        else if n ≤ 0xFFFFFFF then 4 else 5) ∧
    (0x10000000 ≤ n → write_length n =
      0xF0 :: [n / 2 ^ 24, n / 2 ^ 16 % 256, n / 2 ^ 8 % 256, n % 256]) := by
  by_cases c1 : n < 0x80
  · rw [write_length_band1 n c1]
    refine ⟨read_length_band1 n rest (by omega),
      by simp only [List.length_cons, List.length_nil]; rw [if_pos (by omega)],
      fun hx => absurd hx (by omega)⟩
  · by_cases c2 : n < 0x4000
    · rw [write_length_band2 n (by omega) c2]
      refine ⟨?_, ?_, fun hx => absurd hx (by omega)⟩
      · rw [List.cons_append, List.cons_append, List.nil_append]
        rw [read_length_band2 _ _ rest (by omega) (by omega) (by omega)]
        simp only [Prod.mk.injEq]
        exact ⟨by omega, trivial⟩
      · simp only [List.length_cons, List.length_nil]
        rw [if_neg (by omega), if_pos (by omega)]
    · by_cases c3 : n < 0x200000
      · rw [write_length_band3 n (by omega) c3]
        refine ⟨?_, ?_, fun hx => absurd hx (by omega)⟩
        · simp only [List.cons_append, List.nil_append]
          rw [read_length_band3 _ _ _ rest (by omega) (by omega) (by omega) (by omega)]
          simp only [Prod.mk.injEq]
          exact ⟨by omega, trivial⟩
        · simp only [List.length_cons, List.length_nil]
          rw [if_neg (by omega), if_neg (by omega), if_pos (by omega)]
      · by_cases c4 : n < 0x10000000
        · rw [write_length_band4 n (by omega) c4]
          refine ⟨?_, ?_, fun hx => absurd hx (by omega)⟩
          · simp only [List.cons_append, List.nil_append]
            rw [read_length_band4 _ _ _ _ rest (by omega) (by omega) (by omega) (by omega)
              (by omega)]
            simp only [Prod.mk.injEq]
            exact ⟨by omega, trivial⟩
          · simp only [List.length_cons, List.length_nil]
            rw [if_neg (by omega), if_neg (by omega), if_neg (by omega), if_pos (by omega)]
        · rw [write_length_band5 n (by omega) h]
          refine ⟨?_, ?_, ?_⟩
          · simp only [List.cons_append, List.nil_append]
            rw [read_length_band5 _ _ _ _ _ rest (by omega) (by omega) (by omega) (by omega)
              (by omega) (by omega)]
            simp only [Prod.mk.injEq]
            exact ⟨by omega, trivial⟩
          · simp only [List.length_cons, List.length_nil]
            rw [if_neg (by omega), if_neg (by omega), if_neg (by omega), if_neg (by omega)]
          · intro hx
            norm_num

/-- Witness for C1 at a concrete 5-byte-band input. -/
theorem length_codec_roundtrip_witness :
    read_length (write_length 0x12345678 ++ [9]) = (0x12345678, [9]) ∧
    (write_length 0x12345678).length =
      (if 0x12345678 ≤ 0x7F then 1 else if 0x12345678 ≤ 0x3FFF then 2
        else if 0x12345678 ≤ 0x1FFFFF then 3
        else if 0x12345678 ≤ 0xFFFFFFF then 4 else 5) ∧
    (0x10000000 ≤ 0x12345678 → write_length 0x12345678 =
      0xF0 :: [0x12345678 / 2 ^ 24, 0x12345678 / 2 ^ 16 % 256,
        0x12345678 / 2 ^ 8 % 256, 0x12345678 % 256]) :=
  length_codec_roundtrip 0x12345678 [9] (by norm_num)

/- ---------------------------------------------------------------------------
Sentences (source: `Sentence`, `write_sentence`, `parse_sentence`,
`read_sentence`, `RunCommand`)
--------------------------------------------------------------------------- -/

/-- A RouterOS sentence: a command and attributes.  Go's `map[string]string`
is modelled as an association list whose keys are unique; insertion follows
Go map assignment (overwrite the value under an existing key, else append). -/
structure Sentence where
  Command : String
  Attributes : List (String × String)
deriving DecidableEq

/-- Go map lookup `m[k]`: a missing key yields the zero value `""`. -/
def map_get (m : List (String × String)) (k : String) : String :=
  match m.find? (fun p => p.1 == k) with
  | some p => p.2
  | none => ""

/-- Go map assignment `m[k] = v`. -/
def map_insert (m : List (String × String)) (k v : String) : List (String × String) :=
  if m.any (fun p => p.1 == k) then
    m.map (fun p => if p.1 == k then (k, v) else p)
  else
    m ++ [(k, v)]

/-- `write_sentence`, at word granularity: the command word, then one word
`attribute ++ "=" ++ value` per attribute in iteration order (the list order
stands for one possible Go map iteration order), then the empty terminator
word. -/
def write_sentence (sentence : Sentence) : List String :=
  sentence.Command :: sentence.Attributes.map (fun p => p.1 ++ "=" ++ p.2) ++ [""]

/-- Splits a character list around its LAST '=': `split_last_eq cs = some (a, b)`
when `cs = a ++ '=' :: b` with `b` free of '='; `none` when `cs` has no '='. -/
def split_last_eq : List Char → Option (List Char × List Char)
  | [] => none
  | c :: cs =>
    match split_last_eq cs with
    | some ab => some (c :: ab.1, ab.2)
    | none => if c = '=' then some ([], cs) else none

/-- Semantics of the Go `regexp.FindStringSubmatch` call in `parse_sentence`
with the pattern `^(=.*)(?:=(.*))$`: the word must start with '=', contain a
second '=', and (as `.` matches no newline) contain no newline at all; the
greedy first group then extends to just before the last '=', which separates
the captured name from the captured value. -/
def find_attr_submatch (word : String) : Option (String × String) :=
  match word.data with
  | '=' :: rest =>
    if rest.contains '\n' then none
    else
      match split_last_eq rest with
      | some ab => some (String.mk ('=' :: ab.1), String.mk ab.2)
      | none => none
  | _ => none

/-- `parse_sentence`: builds a sentence from the collected words.  Zero words
give the empty no-data sentence (Go returns `Sentence{}`).  Each word after
the first is matched against the attribute regex; on a failed match the Go
code indexes the nil submatch slice and panics, modelled by `none`. -/
def parse_sentence (words : List String) : Option Sentence :=
  match words with
  | [] => some ⟨"", []⟩
  | w :: ws =>
    match ws.foldlM (fun attrs word =>
        (find_attr_submatch word).map (fun kv => map_insert attrs kv.1 kv.2)) [] with
    | some attrs => some ⟨w, attrs⟩
    | none => none

/-- `read_sentence`, at word granularity: accumulate incoming words until a
zero-length word arrives, then parse the collection.  An exhausted stream is
EOF, where `read_word` yields the empty string (a zero-byte buffer), ending
the sentence the same way. -/
def read_sentence (words : List String) : List String → Option Sentence × List String
  | [] => (parse_sentence words, [])
  | w :: rest =>
    if w.length = 0 then (parse_sentence words, rest)
    else read_sentence (words ++ [w]) rest

/-- `RunCommand`'s reply-accumulation loop, at sentence granularity: `stream`
is the sequence of sentences the connection delivers.  An empty-command
sentence is skipped; a `!trap` sentence overwrites the pending error with its
`=message` attribute and is appended like any other sentence; `!done` is
appended and stops the loop.  A stream that ends before `!done` leaves the Go
loop reading the empty sentences EOF produces forever: modelled by `none`. -/
def run_command_loop (reply : List Sentence) (err : Option String) :
    List Sentence → Option (List Sentence × Option String)
  | [] => none
  | s :: rest =>
    if s.Command.length = 0 then run_command_loop reply err rest
    else
      let err2 := if s.Command = "!trap" then some (map_get s.Attributes "=message") else err
      let reply2 := reply ++ [s]
      if s.Command = "!done" then some (reply2, err2)
      else run_command_loop reply2 err2 rest

/-- `RunCommand`: send the command (the model has nothing to record for the
write half, whose transport errors the Go code discards), then accumulate the
reply starting from an empty reply and no pending error. -/
def RunCommand (stream : List Sentence) : Option (List Sentence × Option String) :=
  run_command_loop [] none stream

theorem string_eq_empty_of_length {s : String} (h : s.length = 0) : s = "" := by
  cases s with
  | mk data =>
    cases data with
    | nil => rfl
    | cons c cs => simp [String.length] at h

theorem run_command_loop_prefix (stream : List Sentence) :
    ∀ acc err reply e, run_command_loop acc err stream = some (reply, e) →
      ∃ tail, reply = acc ++ tail := by
  induction stream with
  | nil =>
    intro acc err reply e h
    simp [run_command_loop] at h
  | cons s rest ih =>
    intro acc err reply e h
    by_cases hc : s.Command.length = 0
    · simp only [run_command_loop, if_pos hc] at h
      exact ih acc err reply e h
    · by_cases hd : s.Command = "!done"
      · simp only [run_command_loop, if_neg hc, if_pos hd, Option.some.injEq,
          Prod.mk.injEq] at h
        exact ⟨[s], h.1.symm⟩
      · simp only [run_command_loop, if_neg hc, if_neg hd] at h
        obtain ⟨tail, htail⟩ := ih (acc ++ [s]) _ reply e h
        exact ⟨s :: tail, by simpa using htail⟩

theorem run_command_loop_last (stream : List Sentence) :
    ∀ acc err reply e, run_command_loop acc err stream = some (reply, e) →
      ∃ last, reply.getLast? = some last ∧ last.Command = "!done" := by
  induction stream with
  | nil =>
    intro acc err reply e h
    simp [run_command_loop] at h
  | cons s rest ih =>
    intro acc err reply e h
    by_cases hc : s.Command.length = 0
    · simp only [run_command_loop, if_pos hc] at h
      exact ih acc err reply e h
    · by_cases hd : s.Command = "!done"
      · simp only [run_command_loop, if_neg hc, if_pos hd, Option.some.injEq,
          Prod.mk.injEq] at h
        refine ⟨s, ?_, hd⟩
        rw [← h.1]
        exact List.getLast?_concat acc
      · simp only [run_command_loop, if_neg hc, if_neg hd] at h
        exact ih (acc ++ [s]) _ reply e h

theorem run_command_loop_mem (stream : List Sentence) :
    ∀ acc err reply e, run_command_loop acc err stream = some (reply, e) →
      ∀ x ∈ reply, x ∈ acc ∨ x.Command ≠ "" := by
  induction stream with
  | nil =>
    intro acc err reply e h
    simp [run_command_loop] at h
  | cons s rest ih =>
    intro acc err reply e h
    by_cases hc : s.Command.length = 0
    · simp only [run_command_loop, if_pos hc] at h
      exact ih acc err reply e h
    · have hs : s.Command ≠ "" := fun h0 => hc (by rw [h0]; rfl)
      by_cases hd : s.Command = "!done"
      · simp only [run_command_loop, if_neg hc, if_pos hd, Option.some.injEq,
          Prod.mk.injEq] at h
        intro x hx
        rw [← h.1] at hx
        rcases List.mem_append.mp hx with hx' | hx'
        · exact Or.inl hx'
        · right
          rw [List.mem_singleton.mp hx']
          exact hs
      · simp only [run_command_loop, if_neg hc, if_neg hd] at h
        intro x hx
        rcases ih (acc ++ [s]) _ reply e h x hx with hx' | hx'
        · rcases List.mem_append.mp hx' with hx'' | hx''
          · exact Or.inl hx''
          · right
            rw [List.mem_singleton.mp hx'']
            exact hs
        · exact Or.inr hx'

theorem run_command_loop_err (stream : List Sentence) :
    ∀ acc err reply e, run_command_loop acc err stream = some (reply, some e) →
      err = some e ∨
        ∃ s, s ∈ reply ∧ s.Command = "!trap" ∧ map_get s.Attributes "=message" = e := by
  induction stream with
  | nil =>
    intro acc err reply e h
    simp [run_command_loop] at h
  | cons s rest ih =>
    intro acc err reply e h
    by_cases hc : s.Command.length = 0
    · simp only [run_command_loop, if_pos hc] at h
      exact ih acc err reply e h
    · by_cases hd : s.Command = "!done"
      · have ht : s.Command ≠ "!trap" := by rw [hd]; decide
        simp only [run_command_loop, if_neg hc, if_pos hd, if_neg ht, Option.some.injEq,
          Prod.mk.injEq] at h
        exact Or.inl h.2
      · simp only [run_command_loop, if_neg hc, if_neg hd] at h
        have hpre := run_command_loop_prefix rest (acc ++ [s]) _ reply (some e) h
        obtain ⟨tail, htail⟩ := hpre
        rcases ih (acc ++ [s]) _ reply e h with h' | h'
        · by_cases ht : s.Command = "!trap"
          · rw [if_pos ht] at h'
            refine Or.inr ⟨s, ?_, ht, (Option.some.injEq _ _).mp h'⟩
            rw [htail]
            exact List.mem_append.mpr (Or.inl (List.mem_append.mpr (Or.inr (List.mem_singleton.mpr rfl))))
          · rw [if_neg ht] at h'
            exact Or.inl h'
        · exact Or.inr h'

theorem run_command_loop_plain (mid : List Sentence) :
    ∀ (acc : List Sentence) (err : Option String) (d : Sentence), d.Command = "!done" →
      (∀ s ∈ mid, s.Command ≠ "" ∧ s.Command ≠ "!done" ∧ s.Command ≠ "!trap") →
      run_command_loop acc err (mid ++ [d]) = some (acc ++ mid ++ [d], err) := by
  induction mid with
  | nil =>
    intro acc err d hd _
    have h1 : ¬ d.Command.length = 0 := by rw [hd]; decide
    have h2 : d.Command ≠ "!trap" := by rw [hd]; decide
    simp only [List.nil_append, run_command_loop, if_neg h1, if_neg h2, if_pos hd,
      List.append_nil]
  | cons m mid ih =>
    intro acc err d hd hmid
    have hm := hmid m (List.mem_cons_self m mid)
    have h1 : ¬ m.Command.length = 0 := fun h0 => hm.1 (string_eq_empty_of_length h0)
    simp only [List.cons_append, run_command_loop, if_neg h1, if_neg hm.2.2, if_neg hm.2.1,
      List.append_eq]
    rw [ih (acc ++ [m]) err d hd (fun s hs => hmid s (List.mem_cons_of_mem m hs))]
    simp

/-- Claim C2: whenever RunCommand returns a reply (with or without an error),
the reply is non-empty and its last sentence's command is the terminal marker
"!done"; a partial reply is never returned (a stream without "!done" makes
the loop spin, `none`). -/
theorem run_command_last_done (stream reply : List Sentence) (e : Option String)
    (h : RunCommand stream = some (reply, e)) :
    reply ≠ [] ∧ ∃ last, reply.getLast? = some last ∧ last.Command = "!done" := by
  obtain ⟨last, hl, hld⟩ := run_command_loop_last stream [] none reply e h
  refine ⟨?_, last, hl, hld⟩
  intro h0
  rw [h0] at hl
  simp at hl

/-- Witness for C2 on the one-sentence stream `!done`. -/
theorem run_command_last_done_witness :
    ([⟨"!done", []⟩] : List Sentence) ≠ [] ∧
      ∃ last, ([⟨"!done", []⟩] : List Sentence).getLast? = some last ∧
        last.Command = "!done" :=
  run_command_last_done [⟨"!done", []⟩] [⟨"!done", []⟩] none (by decide)

/-- Claim C9: a zero-length word, arriving alone, decodes to the no-data
sentence, and no sentence of a returned reply has an empty command. -/
theorem reply_has_no_empty_sentence (stream reply : List Sentence) (e : Option String)
    (h : RunCommand stream = some (reply, e)) :
    (∀ rest : List String, read_sentence [] ("" :: rest) = (some ⟨"", []⟩, rest)) ∧
    ∀ s ∈ reply, s.Command ≠ "" := by
  constructor
  · intro rest
    simp [read_sentence, parse_sentence]
  · intro s hs
    rcases run_command_loop_mem stream [] none reply e h s hs with h' | h'
    · simp at h'
    · exact h'

/-- Witness for C9 on the one-sentence stream `!done`. -/
theorem reply_has_no_empty_sentence_witness :
    (∀ rest : List String, read_sentence [] ("" :: rest) = (some ⟨"", []⟩, rest)) ∧
    ∀ s ∈ ([⟨"!done", []⟩] : List Sentence), s.Command ≠ "" :=
  reply_has_no_empty_sentence [⟨"!done", []⟩] [⟨"!done", []⟩] none (by decide)

/-- Claim C5: a `!trap` sentence in the reply stream is appended to the reply,
accumulation continues through any further ordinary sentences until `!done`,
and the returned error is the trap's `=message` attribute value. -/
theorem run_command_trap (t d : Sentence) (mid : List Sentence)
    (ht : t.Command = "!trap")
    (hmid : ∀ s ∈ mid, s.Command ≠ "" ∧ s.Command ≠ "!done" ∧ s.Command ≠ "!trap")
    (hd : d.Command = "!done") :
    RunCommand (t :: mid ++ [d]) =
      some (t :: mid ++ [d], some (map_get t.Attributes "=message")) := by
  have h1 : ¬ t.Command.length = 0 := by rw [ht]; decide
  have h2 : t.Command ≠ "!done" := by rw [ht]; decide
  unfold RunCommand
  simp only [List.cons_append, run_command_loop, if_neg h1, if_neg h2, if_pos ht,
    List.nil_append, List.append_eq]
  rw [run_command_loop_plain mid [t] (some (map_get t.Attributes "=message")) d hd hmid]
  simp

/-- Witness for C5: the stream `!trap =message=no such item` then `!done`
yields the two-sentence reply and the error text "no such item". -/
theorem run_command_trap_witness :
    RunCommand [⟨"!trap", [("=message", "no such item")]⟩, ⟨"!done", []⟩] =
      some ([⟨"!trap", [("=message", "no such item")]⟩, ⟨"!done", []⟩],
        some "no such item") := by
  have h := run_command_trap ⟨"!trap", [("=message", "no such item")]⟩ ⟨"!done", []⟩ []
    rfl (by simp) rfl
  simpa [map_get] using h

/-- Claim C8 (what the code actually does): the only errors RunCommand ever
returns are `!trap` messages taken from reply sentences; a transport failure
has no path into the returned error, and `read_byte` maps a failed or
exhausted read to the byte 0 with no error indication at all. -/
theorem run_command_error_only_from_trap (stream reply : List Sentence) (e : String)
    (h : RunCommand stream = some (reply, some e)) :
    (∃ s, s ∈ reply ∧ s.Command = "!trap" ∧ map_get s.Attributes "=message" = e) ∧
    read_byte [] = (0, []) := by
  rcases run_command_loop_err stream [] none reply e h with h' | h'
  · exact absurd h' (by simp)
  · exact ⟨h', rfl⟩

/-- Witness for C8 on the trap stream. -/
theorem run_command_error_only_from_trap_witness :
    (∃ s, s ∈ ([⟨"!trap", [("=message", "no such item")]⟩, ⟨"!done", []⟩] : List Sentence) ∧
      s.Command = "!trap" ∧ map_get s.Attributes "=message" = "no such item") ∧
    read_byte [] = (0, []) :=
  run_command_error_only_from_trap
    [⟨"!trap", [("=message", "no such item")]⟩, ⟨"!done", []⟩]
    [⟨"!trap", [("=message", "no such item")]⟩, ⟨"!done", []⟩]
    "no such item" (by decide)

/-- Claim C3 (what the code actually does at the failing input): on the word
"=comment=a=b" the greedy regex splits at the LAST '=', so the decoded
attribute is "=comment=a" ↦ "b", not "=comment" ↦ "a=b" as a first-'='
split would give. -/
theorem parse_sentence_splits_at_last_eq :
    parse_sentence ["!re", "=comment=a=b"] = some ⟨"!re", [("=comment=a", "b")]⟩ ∧
    find_attr_submatch "=comment=a=b" ≠ some ("=comment", "a=b") := by decide

/-- Claim C4: the sentence `/interface/ovpn-client/set` with attributes
`=.id ↦ *1` and `=connect-to ↦ 203.0.113.9` survives the encode/decode round
trip for either attribute iteration order, reproducing the same command and
the same attribute mapping. -/
theorem sentence_roundtrip :
    (read_sentence []
      (write_sentence ⟨"/interface/ovpn-client/set",
        [("=.id", "*1"), ("=connect-to", "203.0.113.9")]⟩) =
      (some ⟨"/interface/ovpn-client/set",
        [("=.id", "*1"), ("=connect-to", "203.0.113.9")]⟩, [])) ∧
    (read_sentence []
      (write_sentence ⟨"/interface/ovpn-client/set",
        [("=connect-to", "203.0.113.9"), ("=.id", "*1")]⟩) =
      (some ⟨"/interface/ovpn-client/set",
        [("=connect-to", "203.0.113.9"), ("=.id", "*1")]⟩, [])) ∧
    (map_get [("=.id", "*1"), ("=connect-to", "203.0.113.9")] "=.id" =
      map_get [("=connect-to", "203.0.113.9"), ("=.id", "*1")] "=.id") ∧
    (map_get [("=.id", "*1"), ("=connect-to", "203.0.113.9")] "=connect-to" =
      map_get [("=connect-to", "203.0.113.9"), ("=.id", "*1")] "=connect-to") := by
  decide

/-- Claim C10: sentence parsing is not total: a non-first word that does not
match `^(=.*)(?:=(.*))$` — one with no leading '=' or no second '=' — makes
the Go code index the nil submatch slice and panic (`none` in the model)
instead of returning an error value. -/
theorem parse_sentence_crash_reachable :
    parse_sentence ["!re", "=x"] = none ∧ parse_sentence ["!re", "abc"] = none := by
  decide

/- ---------------------------------------------------------------------------
Word reads from the connection (source: `read_word`): the failing-input model
for short reads.
--------------------------------------------------------------------------- -/

/-- One `conn.Read(buf)` call against a connection whose pending bytes arrive
in the given chunks (e.g. TCP segment boundaries): at most one chunk is
consumed per call and at most `n` of its bytes are delivered; an exhausted
chunk list is EOF, delivering nothing. -/
def conn_read (chunks : List (List Nat)) (n : Nat) : List Nat × List (List Nat) :=
  match chunks with
  | [] => ([], [])
  | c :: rest => if c.length ≤ n then (c, rest) else (c.take n, c.drop n :: rest)

/-- `read_word`'s byte fetch as the Go code performs it: allocate an n-byte
zero buffer, issue ONE `conn.Read` into it, ignore the returned byte count and
the error, and convert the whole buffer: a short read leaves trailing zero
bytes in the word. -/
def read_word_data (chunks : List (List Nat)) (n : Nat) : List Nat × List (List Nat) :=
  match conn_read chunks n with
  | (got, rest) => (got ++ List.replicate (n - got.length) 0, rest)

/-- Claim C7 (what the code actually does at the failing input): with decoded
word length 2 and the stream delivering byte 0x41 and then byte 0x42 in two
separate reads, the single unchecked `conn.Read` yields the word 0x41 0x00 —
the zero-padded short read, with 0x42 left for the next word — rather than
retrying until 0x41 0x42 is obtained. -/
theorem read_word_short_read :
    read_word_data [[0x41], [0x42]] 2 = ([0x41, 0x00], [[0x42]]) ∧
    read_word_data [[0x41], [0x42]] 2 ≠ ([0x41, 0x42], []) := by decide

/- ---------------------------------------------------------------------------
Authentication digest (source: `Connect`, the login-response computation).
The Go code feeds one zero byte, the password and the decoded seed to
crypto/md5 and formats the sum with `fmt.Sprintf("00%x", ...)`.  MD5 itself
(RFC 1321) is embedded below so the response is a closed computable function
of password and seed.
--------------------------------------------------------------------------- -/

/-- MD5 per-step left-rotation amounts. -/
def md5_s : List Nat :=
  [7, 12, 17, 22, 7, 12, 17, 22, 7, 12, 17, 22, 7, 12, 17, 22, 5, 9, 14, 20, 5, 9, 14, 20, 5, 9, 14, 20, 5, 9, 14, 20, 4, 11, 16, 23, 4, 11, 16, 23, 4, 11, 16, 23, 4, 11, 16, 23, 6, 10, 15, 21, 6, 10, 15, 21, 6, 10, 15, 21, 6, 10, 15, 21]

/-- MD5 sine-derived additive constants. -/
def md5_K : List Nat :=
  [3614090360, 3905402710, 606105819, 3250441966,
    4118548399, 1200080426, 2821735955, 4249261313,
    1770035416, 2336552879, 4294925233, 2304563134,
    1804603682, 4254626195, 2792965006, 1236535329,
    4129170786, 3225465664, 643717713, 3921069994,
    3593408605, 38016083, 3634488961, 3889429448,
    568446438, 3275163606, 4107603335, 1163531501,
    2850285829, 4243563512, 1735328473, 2368359562,
    4294588738, 2272392833, 1839030562, 4259657740,
    2763975236, 1272893353, 4139469664, 3200236656,
    681279174, 3936430074, 3572445317, 76029189,
    3654602809, 3873151461, 530742520, 3299628645,
    4096336452, 1126891415, 2878612391, 4237533241,
    1700485571, 2399980690, 4293915773, 2240044497,
    1873313359, 4264355552, 2734768916, 1309151649,
    4149444226, 3174756917, 718787259, 3951481745]

/-- 32-bit left rotation (operands below 2^32). -/
def rotl32 (x c : Nat) : Nat := ((x <<< c) ||| (x >>> (32 - c))) % 4294967296

/-- MD5 round function, rounds 1-4 select F, G, H, I. -/
def md5_F (b c d : Nat) : Nat := (b &&& c) ||| ((0xFFFFFFFF ^^^ b) &&& d)

def md5_G (b c d : Nat) : Nat := (d &&& b) ||| ((0xFFFFFFFF ^^^ d) &&& c)

def md5_H (b c d : Nat) : Nat := b ^^^ c ^^^ d

def md5_I (b c d : Nat) : Nat := c ^^^ (b ||| (0xFFFFFFFF ^^^ d))

/-- One of the 64 MD5 steps on state (a, b, c, d) over message words `M`. -/
def md5_step (M : List Nat) (st : Nat × Nat × Nat × Nat) (i : Nat) :
    Nat × Nat × Nat × Nat :=
  let a := st.1
  let b := st.2.1
  let c := st.2.2.1
  let d := st.2.2.2
  let fg :=
    if i < 16 then (md5_F b c d, i)
    else if i < 32 then (md5_G b c d, (5 * i + 1) % 16)
    else if i < 48 then (md5_H b c d, (3 * i + 5) % 16)
    else (md5_I b c d, (7 * i) % 16)
  let f := (fg.1 + a + md5_K.getD i 0 + M.getD fg.2 0) % 4294967296
  (d, (b + rotl32 f (md5_s.getD i 0)) % 4294967296, b, c)

/-- One 512-bit MD5 block: 64 steps, then add the incoming state back in. -/
def md5_block (st : Nat × Nat × Nat × Nat) (M : List Nat) : Nat × Nat × Nat × Nat :=
  let r := (List.range 64).foldl (md5_step M) st
  ((st.1 + r.1) % 4294967296, (st.2.1 + r.2.1) % 4294967296,
    (st.2.2.1 + r.2.2.1) % 4294967296, (st.2.2.2 + r.2.2.2) % 4294967296)

/-- Group bytes into 32-bit little-endian words. -/
def bytes_to_words_le : List Nat → List Nat
  | b0 :: b1 :: b2 :: b3 :: rest =>
    (b0 + 256 * b1 + 65536 * b2 + 16777216 * b3) :: bytes_to_words_le rest
  | _ => []

/-- The `k` little-endian bytes of `n`. -/
def le_bytes : Nat → Nat → List Nat
  | 0, _ => []
  | k + 1, n => n % 256 :: le_bytes k (n / 256)

/-- Split into successive 64-byte blocks (`fuel` bounds the recursion; any
fuel at least the list length is exact). -/
def md5_chunks (fuel : Nat) (bytes : List Nat) : List (List Nat) :=
  match fuel, bytes with
  | 0, _ => []
  | _, [] => []
  | f + 1, bs => bs.take 64 :: md5_chunks f (bs.drop 64)

/-- MD5 padding: a 0x80 byte, zeros to 56 mod 64, the bit length as 8
little-endian bytes. -/
def md5_pad (msg : List Nat) : List Nat :=
  msg ++ 0x80 :: List.replicate ((119 - msg.length % 64) % 64) 0 ++
    le_bytes 8 (8 * msg.length)

/-- The MD5 digest (16 bytes) of a byte sequence. -/
def md5 (msg : List Nat) : List Nat :=
  let padded := md5_pad msg
  let st := (md5_chunks padded.length padded).foldl
    (fun st chunk => md5_block st (bytes_to_words_le chunk))
    (0x67452301, 0xefcdab89, 0x98badcfe, 0x10325476)
  le_bytes 4 st.1 ++ le_bytes 4 st.2.1 ++ le_bytes 4 st.2.2.1 ++ le_bytes 4 st.2.2.2

def hex_digit (n : Nat) : Char :=
  if n < 10 then Char.ofNat (48 + n) else Char.ofNat (87 + n)

/-- Lowercase hex, two digits per byte (Go's `%x` on a byte slice). -/
def bytes_hex (bs : List Nat) : String :=
  String.mk (bs.foldr (fun b acc => hex_digit (b / 16 % 16) :: hex_digit (b % 16) :: acc) [])

/-- UTF-8 encoding of one character. -/
def utf8_encode_char (c : Char) : List Nat :=
  let n := c.toNat
  if n < 0x80 then [n]
  else if n < 0x800 then [0xC0 + n / 64, 0x80 + n % 64]
  else if n < 0x10000 then [0xE0 + n / 4096, 0x80 + n / 64 % 64, 0x80 + n % 64]
  else [0xF0 + n / 262144, 0x80 + n / 4096 % 64, 0x80 + n / 64 % 64, 0x80 + n % 64]

/-- The UTF-8 bytes of a string (what Go's `io.WriteString` feeds the hash). -/
def utf8_bytes (s : String) : List Nat :=
  s.data.foldr (fun c acc => utf8_encode_char c ++ acc) []

/-- The login response `Connect` computes (source lines 53-61): an md5 digest
over one zero byte, then the password bytes, then the decoded seed bytes,
printed with `fmt.Sprintf("00%x", ...)`. -/
def connect_response (password : String) (seed : List Nat) : String :=
  "00" ++ bytes_hex (md5 (0x00 :: (utf8_bytes password ++ seed)))

/-- Claim C6: for every password and seed the authentication response is "00"
followed by the lowercase hex MD5 digest of 0x00 ‖ password ‖ seed, and for
seed bytes 0x01 0x02 with password "secret" it is the concrete golden
value "00" ++ hex(md5(0x00 ‖ "secret" ‖ 0x01 0x02)). -/
theorem connect_response_spec :
    (∀ (password : String) (seed : List Nat),
      connect_response password seed =
        "00" ++ bytes_hex (md5 (0x00 :: (utf8_bytes password ++ seed)))) ∧
    connect_response "secret" [0x01, 0x02] = "004dd5fcece4221500e9b7ddc5ad7bbba1" := by
  exact ⟨fun password seed => rfl, by decide⟩
